import Mathlib

/- Verification development for the agent orchestration core of the
   claude-code-clone repository: the LangGraph turn engine (graph.ts,
   nodes.ts, state.ts), the Gemini response shaping (gemini.service.ts),
   the MCP tool registry (mcp.service.ts), the in-memory primary
   conversation storage (memory-storage.service.ts), and the dual-tier
   conversation store described in the design document. -/

/-- A tool call as built in modelNode (nodes.ts): `id`, `type: 'function'`
(the constant tag is omitted), `function.name` (field `fname`) and
`function.arguments` (field `fargs`, the JSON-serialized arguments string). -/
structure ToolCall where
  id : String
  fname : String
  fargs : String
  deriving DecidableEq, Repr

/-- LangChain messages as used by the agent: HumanMessage, AIMessage (with its
`tool_calls` list, which the langchain constructor defaults to the empty list)
and ToolMessage (with `tool_call_id` and tool `name`). Content is modelled as a
string, i.e. the string branch of the source's
`typeof content === 'string'` tests. -/
inductive BMessage where
  | human (content : String)
  | ai (content : String) (tool_calls : List ToolCall)
  | tool (content : String) (tool_call_id : String) (name : String)
  deriving DecidableEq, Repr

def BMessage.content : BMessage → String
  | .human c => c
  | .ai c _ => c
  | .tool c _ _ => c

def BMessage.toolCallId : BMessage → Option String
  | .tool _ i _ => some i
  | _ => none

def BMessage.toolNameOf : BMessage → Option String
  | .tool _ _ n => some n
  | _ => none

/-- A function call as returned by the Gemini SDK (`response.functionCalls()`),
with its arguments object kept in serialized form (`argsJson` stands for
`JSON.stringify(call.args || \x7b\x7d)`). -/
structure FunctionCall where
  name : String
  argsJson : String
  deriving DecidableEq, Repr

/-- The return shape of GeminiService.generateResponse (gemini.service.ts):
`content` is `text ? [\x7btype:'text',text\x7d] : []` (modelled as the list of
text parts), `function_calls` is `functionCalls || []`, and `stop_reason` is
`'tool_use'` when at least one function call is present, `'end_turn'`
otherwise. -/
structure GeminiResponse where
  content : List String
  function_calls : List FunctionCall
  stop_reason : String
  deriving DecidableEq, Repr

/-- GeminiService.generateResponse result construction from the response text
and the function-call list (gemini.service.ts, the final return statement). -/
def generateResponseResult (text : String) (functionCalls : List FunctionCall) :
    GeminiResponse :=
  { content := if text = "" then [] else [text]
  , function_calls := functionCalls
  , stop_reason := if 0 < functionCalls.length then "tool_use" else "end_turn" }

/-- modelNode (nodes.ts): tool calls extracted from the Gemini function calls,
with ids rendered from the template `call_` + `Date.now()` + `_` + index; the
clock value `Date.now()` is modelled by the parameter `now`. -/
def extractToolCalls (functionCalls : List FunctionCall) (now : Nat) :
    List ToolCall :=
  functionCalls.enum.map (fun p =>
    { id := "call_" ++ toString now ++ "_" ++ toString p.1
    , fname := p.2.name
    , fargs := p.2.argsJson })

/-- `response.content.length > 0 ? response.content[0].text : ''` (nodes.ts). -/
def respText (resp : GeminiResponse) : String :=
  match resp.content with
  | [] => ""
  | t :: _ => t

/-- The success path of modelNode (nodes.ts): from the Gemini response it
produces the new assistant message and the `shouldContinue` flag; the branch
condition is `response.stop_reason === 'tool_use' && response.function_calls
&& response.function_calls.length > 0`. -/
def modelNodeStep (resp : GeminiResponse) (now : Nat) : BMessage × Bool :=
  if resp.stop_reason = "tool_use" ∧ 0 < resp.function_calls.length then
    (BMessage.ai (respText resp) (extractToolCalls resp.function_calls now), true)
  else
    (BMessage.ai (respText resp) [], false)

/-- AgentState (state.ts): messages, conversationId, toolResults,
shouldContinue and metadata; the two record-typed fields are modelled as
association lists. -/
structure AgentState where
  messages : List BMessage
  conversationId : String
  toolResults : List (String × String)
  shouldContinue : Bool
  metadata : List (String × String)

/-- graph.ts: `state.shouldContinue ? 'continue' : 'end'`. -/
def shouldContinueToTools (state : AgentState) : String :=
  if state.shouldContinue then "continue" else "end"

/-- The nodes of the compiled state graph (graph.ts); `terminal` stands for
the END sentinel. -/
inductive GraphNode where
  | userInput
  | model
  | toolUse
  | terminal
  deriving DecidableEq, Repr

/-- graph.ts: the conditional edge map attached to the model node,
`continue ↦ toolUse`, `end ↦ END`. -/
def conditionalEdgesFromModel : String → Option GraphNode
  | "continue" => some GraphNode.toolUse
  | "end" => some GraphNode.terminal
  | _ => none

/-- graph.ts: the unconditional edge `.addEdge('toolUse', 'model')`. -/
def edgeAfterToolUse : GraphNode := GraphNode.model

/-- graph.ts: the unconditional edge `.addEdge('userInput', 'model')`. -/
def edgeAfterUserInput : GraphNode := GraphNode.model

/-- The Prisma-style role enum used by both storage tiers. -/
inductive Role where
  | USER
  | ASSISTANT
  | TOOL
  deriving DecidableEq, Repr

/-- MemoryStorageService.mapMessageRole: HumanMessage ↦ USER, AIMessage ↦
ASSISTANT, ToolMessage ↦ TOOL (the fallback branch for other BaseMessage
subclasses also yields USER; the embedding has exactly the three variants). -/
def mapMessageRole : BMessage → Role
  | BMessage.human _ => Role.USER
  | BMessage.ai _ _ => Role.ASSISTANT
  | BMessage.tool _ _ _ => Role.TOOL

/-- A stored message record of the in-memory tier (memory-storage.service.ts):
id `msg_{counter}`, role, string content, and the metadata object whose three
fields are `tool_calls`, `tool_call_id` and `name` (undefined modelled as
`none`); `createdAt` timestamps are not modelled. -/
structure StoredMessage where
  id : String
  conversationId : String
  role : Role
  content : String
  metaToolCalls : Option (List ToolCall)
  metaToolCallId : Option String
  metaName : Option String
  deriving DecidableEq, Repr

/-- A stored tool-execution record (memory-storage.service.ts), with input and
output kept in serialized form and timestamps not modelled. -/
structure StoredToolExecution where
  id : String
  conversationId : String
  toolName : String
  input : String
  output : String
  status : String
  deriving DecidableEq, Repr

/-- An in-memory conversation (memory-storage.service.ts): message log and
tool-execution side log; `isActive`, `state` and timestamps are not modelled. -/
structure MemConversation where
  id : String
  userId : String
  title : String
  messages : List StoredMessage
  toolCalls : List StoredToolExecution
  deriving DecidableEq, Repr

/-- JS `Map.get`, on an association list kept in insertion order. -/
def mapGet {α : Type} (m : List (String × α)) (k : String) : Option α :=
  (m.find? (fun p => p.1 == k)).map (fun p => p.2)

/-- JS `Map.set`, on an association list kept in insertion order: an existing
key keeps its position, a new key is appended. -/
def mapSet {α : Type} (m : List (String × α)) (k : String) (v : α) :
    List (String × α) :=
  if m.any (fun p => p.1 == k) then
    m.map (fun p => if p.1 == k then (k, v) else p)
  else
    m ++ [(k, v)]

/-- MemoryStorageService state: the conversations map and the two id
counters. -/
structure MemoryStorage where
  conversations : List (String × MemConversation)
  messageIdCounter : Nat
  toolExecutionIdCounter : Nat
  deriving DecidableEq, Repr

def emptyMemoryStorage : MemoryStorage :=
  { conversations := [], messageIdCounter := 0, toolExecutionIdCounter := 0 }

/-- MemoryStorageService.createConversation, with the generated id (built in
the source from `Date.now()` and `Math.random()`) passed as a parameter. -/
def MemoryStorage.createConversation (store : MemoryStorage)
    (id userId title : String) : MemoryStorage :=
  { store with
    conversations := mapSet store.conversations id
      { id := id, userId := userId, title := title
      , messages := [], toolCalls := [] } }

/-- One stored record as built inside MemoryStorageService.saveMessages: id
`msg_{++counter}` (the record at offset `idx` of a batch gets counter value
`counter + idx + 1`), role via mapMessageRole, string content, and metadata
with `tool_calls` for an AIMessage and `tool_call_id`/`name` for a
ToolMessage. -/
def storedMessage (counter : Nat) (conversationId : String) (idx : Nat)
    (m : BMessage) : StoredMessage :=
  { id := "msg_" ++ toString (counter + idx + 1)
  , conversationId := conversationId
  , role := mapMessageRole m
  , content := m.content
  , metaToolCalls := match m with
      | BMessage.ai _ tcs => some tcs
      | _ => none
  , metaToolCallId := match m with
      | BMessage.tool _ tcid _ => some tcid
      | _ => none
  , metaName := match m with
      | BMessage.tool _ _ n => some n
      | _ => none }

/-- MemoryStorageService.saveMessages: unknown conversation is a silent no-op;
otherwise each message is mapped to a stored record and appended to the
conversation's log. In the source the conversation object is mutated in
place; here the map entry is replaced with the updated conversation. -/
def MemoryStorage.saveMessages (store : MemoryStorage)
    (conversationId : String) (messages : List BMessage) : MemoryStorage :=
  match mapGet store.conversations conversationId with
  | none => store
  | some conv =>
    let messageData : List StoredMessage := messages.enum.map (fun p =>
      storedMessage store.messageIdCounter conversationId p.1 p.2)
    { store with
      conversations := mapSet store.conversations conversationId
        { conv with messages := conv.messages ++ messageData }
    , messageIdCounter := store.messageIdCounter + messages.length }

/-- MemoryStorageService.saveToolExecution: unknown conversation is a silent
no-op; otherwise one record (id `tool_{++counter}`) is appended to the
conversation's tool-execution log. -/
def MemoryStorage.saveToolExecution (store : MemoryStorage)
    (conversationId toolName input output status : String) : MemoryStorage :=
  match mapGet store.conversations conversationId with
  | none => store
  | some conv =>
    { store with
      conversations := mapSet store.conversations conversationId
        { conv with toolCalls := conv.toolCalls ++
          [{ id := "tool_" ++ toString (store.toolExecutionIdCounter + 1)
           , conversationId := conversationId
           , toolName := toolName
           , input := input
           , output := output
           , status := status }] }
    , toolExecutionIdCounter := store.toolExecutionIdCounter + 1 }

/-- JS `array.slice(-limit)` for a natural-number `limit`: `slice(-0)` equals
`slice(0)` and returns the whole array; for a positive `limit` it returns the
last `min limit length` elements. -/
def jsSliceLast {α : Type} (l : List α) (limit : Nat) : List α :=
  if limit = 0 then l else l.drop (l.length - limit)

/-- The message reconstruction of
MemoryStorageService.getConversationMessages: USER ↦ HumanMessage,
ASSISTANT ↦ AIMessage with `tool_calls: metadata?.tool_calls` (an undefined
value falls back to the langchain default, the empty list), TOOL ↦
ToolMessage with `tool_call_id` and `name` from the metadata (undefined
modelled as the empty string). -/
def restoreMessage (m : StoredMessage) : BMessage :=
  match m.role with
  | Role.USER => BMessage.human m.content
  | Role.ASSISTANT => BMessage.ai m.content (m.metaToolCalls.getD [])
  | Role.TOOL =>
      BMessage.tool m.content (m.metaToolCallId.getD "") (m.metaName.getD "")

/-- MemoryStorageService.getConversationMessages: unknown conversation yields
the empty list; otherwise `conversation.messages.slice(-limit)` mapped through
the reconstruction above. -/
def MemoryStorage.getConversationMessages (store : MemoryStorage)
    (conversationId : String) (limit : Nat) : List BMessage :=
  match mapGet store.conversations conversationId with
  | none => []
  | some conv => (jsSliceLast conv.messages limit).map restoreMessage

/-- `JSON.stringify(\x7b error: errorObj.message \x7d)` as built in the catch
branch of toolUseNode (escaping inside the message is not modelled). -/
def errorPayload (msg : String) : String :=
  "\x7b\"error\":\"" ++ msg ++ "\"\x7d"

/-- One iteration of the dispatch loop of toolUseNode (nodes.ts): the whole
provider call (web-search branch, server resolution — whose miss throws `No
server found for tool` — and MCP call) is abstracted by the oracle `exec`; a
success yields a ToolMessage carrying the result string, a failure is caught
and yields a ToolMessage carrying the error payload; in both branches
`tool_call_id` is `toolCall.id || ''` and `name` is
`toolCall.function?.name || ''`, which for string-valued fields equal the
fields themselves. -/
def runToolCall (exec : ToolCall → Except String String) (tc : ToolCall) :
    BMessage :=
  match exec tc with
  | Except.ok result => BMessage.tool result tc.id tc.fname
  | Except.error e => BMessage.tool (errorPayload e) tc.id tc.fname

/-- The messages produced by toolUseNode (nodes.ts): when the last message of
the state is an AIMessage its tool-call list is processed in declaration
order, one ToolMessage per call; otherwise no message is produced. -/
def toolUseNodeMessages (exec : ToolCall → Except String String)
    (messages : List BMessage) : List BMessage :=
  match messages.getLast? with
  | some (BMessage.ai _ toolCalls) => toolCalls.map (runToolCall exec)
  | _ => []

/-- The assistant message synthesized by modelNode's catch branch
(nodes.ts). -/
def errorAssistantMessage : BMessage :=
  BMessage.ai "Sorry, I encountered an error while processing your request." []

/-- modelNode including its error boundary (nodes.ts): the Model Gateway call
outcome is `gw`; on success the produced assistant message is persisted via
the store's saveMessages and returned with the `shouldContinue` flag; a
gateway failure is caught, converted into the generic error assistant
message, persisted the same way, and the step returns `shouldContinue =
false`. The function is total: no gateway error escapes to the caller.
Persistence is modelled against the primary (in-memory) tier. -/
def modelNodeRun (gw : Except String GeminiResponse) (now : Nat)
    (store : MemoryStorage) (conversationId : String) :
    MemoryStorage × BMessage × Bool :=
  match gw with
  | Except.ok resp =>
      let r := modelNodeStep resp now
      (store.saveMessages conversationId [r.1], r.1, r.2)
  | Except.error _ =>
      (store.saveMessages conversationId [errorAssistantMessage],
       errorAssistantMessage, false)

/-- Modelled from the spec: the dual-tier Conversation Store of §4.2. The
current dual-tier ConversationService (primary in-memory tier plus best-effort
durable tier guarded by a single cached availability boolean) is not among the
captured sources — only a legacy durable-only variant and the primary-tier
implementation are. Field `memory` is the primary tier, `dbAvailable` the
cached durable-tier availability flag. -/
structure ConversationStore where
  memory : MemoryStorage
  dbAvailable : Bool
  deriving DecidableEq, Repr

/-- Modelled from the spec (§4.2 appendMessages): the primary-tier append
always happens; the durable tier is attempted only while `dbAvailable` is
true; `dbOutcome` says whether that attempt would succeed, and on failure the
flag flips to false without raising (the return type is not fallible). The
second component records whether the durable tier was attempted. -/
def ConversationStore.appendMessages (s : ConversationStore)
    (conversationId : String) (messages : List BMessage) (dbOutcome : Bool) :
    ConversationStore × Bool :=
  let mem := s.memory.saveMessages conversationId messages
  if s.dbAvailable then
    ({ memory := mem, dbAvailable := dbOutcome }, true)
  else
    ({ memory := mem, dbAvailable := false }, false)

/-- Modelled from the spec (§4.2 appendToolExecution): same write-through
discipline as appendMessages. -/
def ConversationStore.appendToolExecution (s : ConversationStore)
    (conversationId toolName input output status : String) (dbOutcome : Bool) :
    ConversationStore × Bool :=
  let mem := s.memory.saveToolExecution conversationId toolName input output status
  if s.dbAvailable then
    ({ memory := mem, dbAvailable := dbOutcome }, true)
  else
    ({ memory := mem, dbAvailable := false }, false)

/-- One Conversation Store write, for reasoning about write sequences: either
an appendMessages or an appendToolExecution call, tagged with the outcome the
durable tier would have if attempted. -/
inductive WriteOp where
  | msgs (conversationId : String) (messages : List BMessage) (dbOutcome : Bool)
  | toolExec (conversationId toolName input output status : String)
      (dbOutcome : Bool)

def writeOpOutcome : WriteOp → Bool
  | WriteOp.msgs _ _ o => o
  | WriteOp.toolExec _ _ _ _ _ o => o

def ConversationStore.applyWrite (s : ConversationStore) (w : WriteOp) :
    ConversationStore × Bool :=
  match w with
  | WriteOp.msgs cid ms o => s.appendMessages cid ms o
  | WriteOp.toolExec cid tn i out st o =>
      s.appendToolExecution cid tn i out st o

/-- A sequence of Conversation Store writes; the second component collects,
per write, whether the durable tier was attempted. -/
def ConversationStore.runWrites (s : ConversationStore) (ws : List WriteOp) :
    ConversationStore × List Bool :=
  match ws with
  | [] => (s, [])
  | w :: rest =>
      let r := s.applyWrite w
      let rr := r.1.runWrites rest
      (rr.1, r.2 :: rr.2)

/-- JSON values (floating-point numbers are modelled as integers; none of the
claims depends on numeric precision). -/
inductive Json where
  | null
  | bool (b : Bool)
  | num (n : Int)
  | str (s : String)
  | arr (xs : List Json)
  | obj (fields : List (String × Json))

/-- JS truthiness of a JSON value (NaN is not modelled). -/
def jsTruthy : Json → Bool
  | Json.null => false
  | Json.bool b => b
  | Json.num n => n != 0
  | Json.str s => s != ""
  | Json.arr _ => true
  | Json.obj _ => true

/-- First-occurrence field lookup on an object's field list (JS objects have
unique keys; with duplicates the first wins, matching property access). -/
def lookupField : List (String × Json) → String → Option Json
  | [], _ => none
  | (k, v) :: rest, key => if k = key then some v else lookupField rest key

/-- JS property access `schema[k]` for the schema keys: defined on objects; on
arrays, strings and other primitives these named properties are undefined. -/
def jsGet : Json → String → Option Json
  | Json.obj fields, k => lookupField fields k
  | _, _ => none

/-- The replacement schema `\x7b type: 'object', properties: \x7b\x7d \x7d`
returned for a falsy or non-object input. -/
def emptyObjectSchema : Json :=
  Json.obj [("type", Json.str "object"), ("properties", Json.obj [])]

/-- `cleaned.type = schema.type || 'object'`. -/
def typeValue : Option Json → Json
  | some v => if jsTruthy v then v else Json.str "object"
  | none => Json.str "object"

def typeFieldSeg (o : Option Json) : List (String × Json) :=
  [("type", typeValue o)]

/-- `if (schema.k) cleaned.k = schema.k`, the copy-through used for
`description` and `enum`. -/
def keepTruthySeg (k : String) (o : Option Json) : List (String × Json) :=
  match o with
  | some v => if jsTruthy v then [(k, v)] else []
  | none => []

/-- `if (schema.required && Array.isArray(schema.required)) cleaned.required
= schema.required` (an array is always truthy). -/
def requiredSeg (o : Option Json) : List (String × Json) :=
  match o with
  | some (Json.arr xs) => [("required", Json.arr xs)]
  | _ => []

/-- Entries of a string-valued `properties` object: JS `Object.entries` on a
string yields index/one-character-string pairs, and cleaning a one-character
string (a non-object) yields the empty object schema; that cleaning is
unfolded here so the recursion below stays well-founded. -/
def strEntriesCleaned (i : Nat) : List Char → List (String × Json)
  | [] => []
  | _ :: rest => (toString i, emptyObjectSchema) :: strEntriesCleaned (i + 1) rest

/-- Size bound used for the termination of cleanJsonSchema: a lookupField
result is no bigger than the field list it was found in. -/
def sizeOf_lookupField_le (fields : List (String × Json)) (k : String) :
    sizeOf (lookupField fields k) ≤ sizeOf fields := by
  induction fields with
  | nil => simp [lookupField]
  | cons p rest ih =>
    obtain ⟨k', v'⟩ := p
    by_cases hk : k' = k
    · rw [lookupField, if_pos hk]
      simp only [List.cons.sizeOf_spec, Prod.mk.sizeOf_spec, Option.some.sizeOf_spec]
      omega
    · rw [lookupField, if_neg hk]
      simp only [List.cons.sizeOf_spec]
      omega

mutual

/-- GeminiService.cleanJsonSchema: a falsy or non-object (JS `typeof`) schema
is replaced by the empty object schema; arrays pass the `typeof` test but
have none of the six properties, so they clean to `\x7b type: 'object' \x7d`;
for an object, `type` is copied (defaulting to 'object' when absent or
falsy), `properties` (when truthy) has each entry cleaned recursively,
`items` (when truthy) is cleaned recursively, `required` is copied when it is
an array, `description` and `enum` are copied when truthy, and every other
field is dropped. -/
def cleanJsonSchema : Json → Json
  | Json.obj fields =>
      Json.obj
        (typeFieldSeg (lookupField fields "type")
          ++ propsSeg (lookupField fields "properties")
          ++ itemsSeg (lookupField fields "items")
          ++ requiredSeg (lookupField fields "required")
          ++ keepTruthySeg "description" (lookupField fields "description")
          ++ keepTruthySeg "enum" (lookupField fields "enum"))
  | Json.arr _ => Json.obj [("type", Json.str "object")]
  | _ => emptyObjectSchema
termination_by j => sizeOf j
decreasing_by
  · have h := sizeOf_lookupField_le fields "properties"
    simp_wf
    omega
  · have h := sizeOf_lookupField_le fields "items"
    simp_wf
    omega

/-- `if (schema.properties) \x7b ... cleaned recursively per entry ... \x7d`. -/
def propsSeg (o : Option Json) : List (String × Json) :=
  match o with
  | some p =>
      if jsTruthy p then [("properties", Json.obj (cleanProperties p))] else []
  | none => []
termination_by sizeOf o

/-- `if (schema.items) cleaned.items = cleanJsonSchema(schema.items)`. -/
def itemsSeg (o : Option Json) : List (String × Json) :=
  match o with
  | some it => if jsTruthy it then [("items", cleanJsonSchema it)] else []
  | none => []
termination_by sizeOf o

/-- The recursively cleaned entries of a truthy `properties` value:
`Object.entries` on an object yields its fields, on an array its
index/element pairs, on a string its index/character pairs (each character
cleans to the empty object schema), and on other primitives nothing. -/
def cleanProperties : Json → List (String × Json)
  | Json.obj fs => cleanPairs fs
  | Json.arr xs => cleanIndexed 0 xs
  | Json.str s => strEntriesCleaned 0 s.toList
  | _ => []
termination_by j => sizeOf j

def cleanPairs : List (String × Json) → List (String × Json)
  | [] => []
  | (k, v) :: rest => (k, cleanJsonSchema v) :: cleanPairs rest
termination_by l => sizeOf l

def cleanIndexed (i : Nat) : List Json → List (String × Json)
  | [] => []
  | x :: rest => (toString i, cleanJsonSchema x) :: cleanIndexed (i + 1) rest
termination_by l => sizeOf l

end

/-- The guard of cleanJsonSchema: `!schema || typeof schema !== 'object'`
fails exactly for arrays and objects (null is falsy, and `typeof` of the
remaining primitives is not 'object'). -/
def Json.isObjLike : Json → Bool
  | Json.arr _ => true
  | Json.obj _ => true
  | _ => false

def indexedJson (i : Nat) : List Json → List (String × Json)
  | [] => []
  | x :: rest => (toString i, x) :: indexedJson (i + 1) rest

def indexedStr (i : Nat) : List Char → List (String × Json)
  | [] => []
  | c :: rest =>
      (toString i, Json.str (String.singleton c)) :: indexedStr (i + 1) rest

/-- JS `Object.entries`: the fields of an object, the index/element pairs of
an array, the index/character pairs of a string, nothing for other
primitives. -/
def jsEntries : Json → List (String × Json)
  | Json.obj fs => fs
  | Json.arr xs => indexedJson 0 xs
  | Json.str s => indexedStr 0 s.toList
  | _ => []

/-- A tool descriptor as advertised by a provider:
`\x7b name, description, inputSchema \x7d`. -/
structure ToolDescriptor where
  name : String
  description : Option String
  inputSchema : Option Json

/-- An MCP server entry (mcp.service.ts): name, command, args and the `tools`
cache, absent until the first listTools call; the client handle is external
and not modelled. -/
structure MCPServer where
  name : String
  command : String
  args : List String
  tools : Option (List ToolDescriptor)

/-- The caching step of MCPService.listTools: `server.tools = tools`
overwrites the cache with the freshly advertised list. -/
def cacheTools (s : MCPServer) (tools : List ToolDescriptor) : MCPServer :=
  { s with tools := some tools }

/-- `server.tools?.some(tool => tool.name === toolName)`; an absent cache
matches nothing. -/
def serverHasTool (s : MCPServer) (toolName : String) : Bool :=
  (s.tools.getD []).any (fun t => t.name == toolName)

/-- MCPService.getServerForTool: scan the servers map in insertion
(registration) order and return the name of the first server whose cached
tool list contains the tool name; return null (none) when no server claims
it. -/
def getServerForTool (servers : List MCPServer) (toolName : String) :
    Option String :=
  match servers with
  | [] => none
  | s :: rest =>
      if serverHasTool s toolName then some s.name
      else getServerForTool rest toolName

/-- One functionDeclarations entry built by
GeminiService.convertToolsToGemini. -/
structure FunctionDeclaration where
  name : String
  description : String
  parameters : Json

/-- GeminiService.convertToolsToGemini: the tool name,
`tool.description || 'No description provided'`, and the cleaned input schema
(an absent schema is falsy and cleans to the empty object schema). -/
def convertToolsToGemini (tools : List ToolDescriptor) :
    List FunctionDeclaration :=
  tools.map (fun tool =>
    { name := tool.name
    , description := match tool.description with
        | some d => if d = "" then "No description provided" else d
        | none => "No description provided"
    , parameters := cleanJsonSchema (tool.inputSchema.getD Json.null) })

theorem lookupField_append_some {xs : List (String × Json)} {k : String}
    {v : Json} (h : lookupField xs k = some v) (ys : List (String × Json)) :
    lookupField (xs ++ ys) k = some v := by
  induction xs with
  | nil => simp [lookupField] at h
  | cons p rest ih =>
    obtain ⟨k', v'⟩ := p
    by_cases hk : k' = k
    · rw [lookupField, if_pos hk] at h
      rw [List.cons_append, lookupField, if_pos hk]
      exact h
    · rw [lookupField, if_neg hk] at h
      rw [List.cons_append, lookupField, if_neg hk]
      exact ih h

theorem lookupField_append_none {xs : List (String × Json)} {k : String}
    (h : lookupField xs k = none) (ys : List (String × Json)) :
    lookupField (xs ++ ys) k = lookupField ys k := by
  induction xs with
  | nil => simp
  | cons p rest ih =>
    obtain ⟨k', v'⟩ := p
    by_cases hk : k' = k
    · rw [lookupField, if_pos hk] at h
      simp at h
    · rw [lookupField, if_neg hk] at h
      rw [List.cons_append, lookupField, if_neg hk]
      exact ih h

/-- C1: the Turn Engine takes Modeling → Dispatching iff the model response
carries at least one tool call, and Modeling → Terminal iff it carries none:
for every Gemini result the `shouldContinue` flag computed by modelNode is
true exactly when the function-call list is non-empty (regardless of the
accompanying text), and the conditional edge of the graph routes `continue`
(to the tool-use node) exactly when `shouldContinue` is true and `end`
(to END) exactly when it is false. -/
theorem c1_modeling_transition (text : String)
    (functionCalls : List FunctionCall) (now : Nat) (s : AgentState) :
    ((modelNodeStep (generateResponseResult text functionCalls) now).2 = true
        ↔ functionCalls ≠ []) ∧
    ((modelNodeStep (generateResponseResult text functionCalls) now).2 = false
        ↔ functionCalls = []) ∧
    (shouldContinueToTools s = "continue" ↔ s.shouldContinue = true) ∧
    (conditionalEdgesFromModel (shouldContinueToTools s) = some GraphNode.toolUse
        ↔ s.shouldContinue = true) ∧
    (conditionalEdgesFromModel (shouldContinueToTools s) = some GraphNode.terminal
        ↔ s.shouldContinue = false) := by
  refine ⟨?_, ?_, ?_, ?_, ?_⟩
  · cases functionCalls <;>
      simp [modelNodeStep, generateResponseResult]
  · cases functionCalls <;>
      simp [modelNodeStep, generateResponseResult]
  · cases hs : s.shouldContinue <;> simp [shouldContinueToTools, hs]
  · cases hs : s.shouldContinue <;>
      simp [shouldContinueToTools, conditionalEdgesFromModel, hs]
  · cases hs : s.shouldContinue <;>
      simp [shouldContinueToTools, conditionalEdgesFromModel, hs]

/-- C5: a durable-tier failure never raises to the caller of appendMessages
or appendToolExecution: the operation returns normally (both operations are
total functions here), the primary-tier append has happened exactly as a
primary-only write would, and the primary result is the same whether the
durable tier succeeds or fails. -/
theorem c5_durable_failure_silent (s : ConversationStore)
    (conversationId : String) (messages : List BMessage)
    (toolName input output status : String) :
    (s.appendMessages conversationId messages false).1.memory
        = s.memory.saveMessages conversationId messages ∧
    (s.appendMessages conversationId messages false).1.memory
        = (s.appendMessages conversationId messages true).1.memory ∧
    (s.appendToolExecution conversationId toolName input output status false).1.memory
        = s.memory.saveToolExecution conversationId toolName input output status ∧
    (s.appendToolExecution conversationId toolName input output status false).1.memory
        = (s.appendToolExecution conversationId toolName input output status true).1.memory := by
  cases h : s.dbAvailable <;>
    simp [ConversationStore.appendMessages, ConversationStore.appendToolExecution, h]

theorem getServerForTool_eq_find (servers : List MCPServer) (toolName : String) :
    getServerForTool servers toolName
      = (servers.find? (fun s => serverHasTool s toolName)).map MCPServer.name := by
  induction servers with
  | nil => rfl
  | cons s rest ih =>
    by_cases h : serverHasTool s toolName
    · simp [getServerForTool, List.find?_cons, h]
    · simp [getServerForTool, List.find?_cons, h, ih]

/-- C8: resolveProvider scans the providers in registration order, consulting
each provider's most-recently cached advertised tool list, and returns the
first provider whose cached list contains the name (so at most one provider
is ever returned); when no cached list contains the name it returns
not-found (null) rather than failing; and re-caching a list overwrites the
previous cache, so the lookup consults the latest advertised list. -/
theorem c8_resolve_provider (servers : List MCPServer) (toolName : String) :
    getServerForTool servers toolName
        = (servers.find? (fun s => serverHasTool s toolName)).map MCPServer.name ∧
    (getServerForTool servers toolName = none
        ↔ ∀ s ∈ servers, serverHasTool s toolName = false) ∧
    (∀ (s : MCPServer) (ta tb : List ToolDescriptor),
        serverHasTool (cacheTools (cacheTools s ta) tb) toolName
          = tb.any (fun t => t.name == toolName)) := by
  refine ⟨getServerForTool_eq_find servers toolName, ?_, ?_⟩
  · rw [getServerForTool_eq_find]
    simp [List.find?_eq_none]
  · intro s ta tb
    simp [serverHasTool, cacheTools]

theorem toolUseNodeMessages_ai (exec : ToolCall → Except String String)
    (text : String) (calls : List ToolCall) (prev : List BMessage) :
    toolUseNodeMessages exec (prev ++ [BMessage.ai text calls])
      = calls.map (runToolCall exec) := by
  simp [toolUseNodeMessages, List.getLast?_concat]

/-- C2: for a Dispatching step whose preceding assistant message carries N
tool calls, even when a provider call fails the step produces exactly N
tool-result messages in call-declaration order — the failing call's message
carrying the error payload, every non-failing call's message carrying its
provider's success payload, each keyed by its call's id and name — and the
graph then re-enters the model (Modeling) node unconditionally rather than
aborting the turn. -/
theorem c2_dispatch_isolation (exec : ToolCall → Except String String)
    (text : String) (calls : List ToolCall) (prev : List BMessage) :
    (toolUseNodeMessages exec (prev ++ [BMessage.ai text calls])).length
        = calls.length ∧
    (∀ (i : Nat) (tc : ToolCall), calls[i]? = some tc →
      ∃ m : BMessage,
        (toolUseNodeMessages exec (prev ++ [BMessage.ai text calls]))[i]?
            = some m ∧
        m.toolCallId = some tc.id ∧
        m.toolNameOf = some tc.fname ∧
        (∀ r, exec tc = Except.ok r → m.content = r) ∧
        (∀ er, exec tc = Except.error er → m.content = errorPayload er)) ∧
    edgeAfterToolUse = GraphNode.model := by
  refine ⟨?_, ?_, rfl⟩
  · rw [toolUseNodeMessages_ai]
    exact List.length_map calls (runToolCall exec)
  · intro i tc h
    refine ⟨runToolCall exec tc, ?_, ?_, ?_, ?_, ?_⟩
    · rw [toolUseNodeMessages_ai, List.getElem?_map, h]
      rfl
    · cases he : exec tc <;> simp [runToolCall, he, BMessage.toolCallId]
    · cases he : exec tc <;> simp [runToolCall, he, BMessage.toolNameOf]
    · intro r hr
      simp [runToolCall, hr, BMessage.content]
    · intro er her
      simp [runToolCall, her, BMessage.content]

/-- C2 witness: three tool calls, the second provider call fails; the step
yields exactly three tool-result messages, and the second carries the error
payload under the second call's id. -/
theorem c2_dispatch_isolation_witness :
    (toolUseNodeMessages
        (fun tc => if tc.id = "2" then Except.error "boom" else Except.ok "ok")
        ([BMessage.human "q"]
          ++ [BMessage.ai "t" [⟨"1", "f1", "a1"⟩, ⟨"2", "f2", "a2"⟩,
                ⟨"3", "f3", "a3"⟩]])).length = 3 ∧
    (∃ m : BMessage,
      (toolUseNodeMessages
        (fun tc => if tc.id = "2" then Except.error "boom" else Except.ok "ok")
        ([BMessage.human "q"]
          ++ [BMessage.ai "t" [⟨"1", "f1", "a1"⟩, ⟨"2", "f2", "a2"⟩,
                ⟨"3", "f3", "a3"⟩]]))[1]? = some m ∧
      m.toolCallId = some "2" ∧
      m.content = errorPayload "boom") := by
  have h := c2_dispatch_isolation
    (fun tc => if tc.id = "2" then Except.error "boom" else Except.ok "ok")
    "t" [⟨"1", "f1", "a1"⟩, ⟨"2", "f2", "a2"⟩, ⟨"3", "f3", "a3"⟩]
    [BMessage.human "q"]
  obtain ⟨h1, h2, -⟩ := h
  obtain ⟨m, hm, hid, -, -, herr⟩ := h2 1 ⟨"2", "f2", "a2"⟩ (by decide)
  exact ⟨h1, m, hm, hid, herr "boom" (by rfl)⟩

/-- C6: every tool-result message produced by the Dispatching step has a
toolCallId equal to the id of the corresponding (same-position) tool call of
the immediately preceding assistant message — in particular an id that
appears in that message's tool-call list — with exactly one result per call;
and when the last message is not an assistant message no tool-result message
is produced at all. -/
theorem c6_tool_call_pairing (exec : ToolCall → Except String String)
    (text : String) (calls : List ToolCall) (prev : List BMessage) :
    (toolUseNodeMessages exec (prev ++ [BMessage.ai text calls])).length
        = calls.length ∧
    (∀ (i : Nat) (m : BMessage),
      (toolUseNodeMessages exec (prev ++ [BMessage.ai text calls]))[i]?
          = some m →
      ∃ tc : ToolCall, calls[i]? = some tc ∧
        m.toolCallId = some tc.id ∧
        tc.id ∈ calls.map ToolCall.id) ∧
    (∀ c, toolUseNodeMessages exec (prev ++ [BMessage.human c]) = []) ∧
    (∀ c tcid n,
        toolUseNodeMessages exec (prev ++ [BMessage.tool c tcid n]) = []) := by
  refine ⟨?_, ?_, ?_, ?_⟩
  · rw [toolUseNodeMessages_ai]
    exact List.length_map calls (runToolCall exec)
  · intro i m hm
    rw [toolUseNodeMessages_ai, List.getElem?_map] at hm
    cases h : calls[i]? with
    | none => rw [h] at hm; simp at hm
    | some tc =>
      rw [h] at hm
      simp only [Option.map_some', Option.some.injEq] at hm
      refine ⟨tc, rfl, ?_, List.mem_map_of_mem ToolCall.id (List.getElem?_mem h)⟩
      cases he : exec tc <;> simp [← hm, runToolCall, he, BMessage.toolCallId]
  · intro c
    simp [toolUseNodeMessages, List.getLast?_concat]
  · intro c tcid n
    simp [toolUseNodeMessages, List.getLast?_concat]

/-- C6 witness: a two-call dispatch where the first produced message's
toolCallId is the first call's id, which occurs in the assistant message's
tool-call list. -/
theorem c6_tool_call_pairing_witness :
    ∃ tc : ToolCall,
      ([⟨"a", "f", "x"⟩, ⟨"b", "g", "y"⟩] : List ToolCall)[0]? = some tc ∧
      (BMessage.tool "r" "a" "f").toolCallId = some tc.id ∧
      tc.id ∈ ([⟨"a", "f", "x"⟩, ⟨"b", "g", "y"⟩] : List ToolCall).map
        ToolCall.id := by
  have h := c6_tool_call_pairing (fun _ => Except.ok "r") ""
    [⟨"a", "f", "x"⟩, ⟨"b", "g", "y"⟩] []
  obtain ⟨-, h2, -, -⟩ := h
  exact h2 0 (BMessage.tool "r" "a" "f") (by decide)

theorem applyWrite_unavailable (s : ConversationStore) (w : WriteOp)
    (h : s.dbAvailable = false) :
    (s.applyWrite w).1.dbAvailable = false ∧ (s.applyWrite w).2 = false := by
  cases w <;>
    simp [ConversationStore.applyWrite, ConversationStore.appendMessages,
      ConversationStore.appendToolExecution, h]

theorem runWrites_unavailable (s : ConversationStore) (ws : List WriteOp)
    (h : s.dbAvailable = false) :
    (s.runWrites ws).1.dbAvailable = false ∧
    (s.runWrites ws).2 = List.replicate ws.length false := by
  induction ws generalizing s with
  | nil => simpa [ConversationStore.runWrites] using h
  | cons w rest ih =>
    obtain ⟨h1, h2⟩ := applyWrite_unavailable s w h
    obtain ⟨h3, h4⟩ := ih (s.applyWrite w).1 h1
    simp [ConversationStore.runWrites, h2, h3, h4, List.replicate_succ]

theorem applyWrite_fail (s : ConversationStore) (w : WriteOp)
    (h : writeOpOutcome w = false) : (s.applyWrite w).1.dbAvailable = false := by
  cases w <;> cases hdb : s.dbAvailable <;>
    simp_all [ConversationStore.applyWrite, ConversationStore.appendMessages,
      ConversationStore.appendToolExecution, writeOpOutcome]

/-- C4: the durable-tier availability flag is a single cached boolean that is
monotone — if it is true after a run of writes it was true before, once false
it stays false — and once false (in particular right after any write whose
durable outcome is a failure) no subsequent write in the run attempts the
durable tier: the per-write attempt trace is all-false. -/
theorem c4_durable_flag_monotone (s : ConversationStore) (ws : List WriteOp) :
    ((s.runWrites ws).1.dbAvailable = true → s.dbAvailable = true) ∧
    (s.dbAvailable = false →
       (s.runWrites ws).1.dbAvailable = false ∧
       (s.runWrites ws).2 = List.replicate ws.length false) ∧
    (∀ w : WriteOp, writeOpOutcome w = false →
       (s.applyWrite w).1.dbAvailable = false ∧
       ((s.applyWrite w).1.runWrites ws).2 = List.replicate ws.length false) := by
  refine ⟨?_, fun h => runWrites_unavailable s ws h, fun w hw => ?_⟩
  · intro h
    cases hdb : s.dbAvailable with
    | true => rfl
    | false =>
      obtain ⟨h1, -⟩ := runWrites_unavailable s ws hdb
      rw [h1] at h
      cases h
  · have h1 := applyWrite_fail s w hw
    exact ⟨h1, (runWrites_unavailable _ ws h1).2⟩

/-- C4 witness: starting from an available durable tier, one failing write
flips the flag to false and a subsequent write does not attempt the durable
tier. -/
theorem c4_durable_flag_monotone_witness :
    writeOpOutcome (WriteOp.msgs "c" [] false) = false ∧
    (ConversationStore.applyWrite ⟨emptyMemoryStorage, true⟩
        (WriteOp.msgs "c" [] false)).1.dbAvailable = false ∧
    ((ConversationStore.applyWrite ⟨emptyMemoryStorage, true⟩
        (WriteOp.msgs "c" [] false)).1.runWrites
          [WriteOp.msgs "c" [] true]).2 = List.replicate 1 false ∧
    (ConversationStore.runWrites ⟨emptyMemoryStorage, false⟩
        [WriteOp.msgs "c" [] true]).2 = List.replicate 1 false := by
  have ha := (c4_durable_flag_monotone ⟨emptyMemoryStorage, true⟩
    [WriteOp.msgs "c" [] true]).2.2 (WriteOp.msgs "c" [] false) rfl
  have hb := (c4_durable_flag_monotone ⟨emptyMemoryStorage, false⟩
    [WriteOp.msgs "c" [] true]).2.1 rfl
  exact ⟨rfl, ha.1, ha.2, hb.2⟩

theorem mapGet_cons {α : Type} (p : String × α) (m : List (String × α))
    (k : String) :
    mapGet (p :: m) k = if p.1 == k then some p.2 else mapGet m k := by
  by_cases hp : (p.1 == k) = true
  · simp [mapGet, List.find?_cons, hp]
  · simp [mapGet, List.find?_cons, hp]

theorem mapGet_map_replace {α : Type} (m : List (String × α)) (k : String)
    (v : α) (h : m.any (fun p => p.1 == k) = true) :
    mapGet (m.map (fun p => if p.1 == k then (k, v) else p)) k = some v := by
  induction m with
  | nil => simp at h
  | cons p rest ih =>
    rw [List.map_cons, mapGet_cons]
    by_cases hp : (p.1 == k) = true
    · rw [if_pos hp]
      simp
    · have hb : (p.1 == k) = false := by
        cases hx : (p.1 == k)
        · rfl
        · exact absurd hx hp
      rw [if_neg hp, if_neg (by simp [hb])]
      apply ih
      simp only [List.any_cons, hb, Bool.false_or] at h
      exact h

theorem mapGet_append_new {α : Type} (m : List (String × α)) (k : String)
    (v : α) (h : m.any (fun p => p.1 == k) = false) :
    mapGet (m ++ [(k, v)]) k = some v := by
  induction m with
  | nil => simp [mapGet_cons]
  | cons p rest ih =>
    simp only [List.any_cons, Bool.or_eq_false_iff] at h
    obtain ⟨h1, h2⟩ := h
    rw [List.cons_append, mapGet_cons, if_neg (by simp [h1])]
    exact ih h2

theorem mapGet_mapSet_self {α : Type} (m : List (String × α)) (k : String)
    (v : α) : mapGet (mapSet m k v) k = some v := by
  rw [mapSet]
  by_cases h : m.any (fun p => p.1 == k) = true
  · rw [if_pos h]
    exact mapGet_map_replace m k v h
  · have hf : m.any (fun p => p.1 == k) = false := by
      cases hx : m.any (fun p => p.1 == k)
      · rfl
      · exact absurd hx h
    rw [if_neg h]
    exact mapGet_append_new m k v hf

theorem saveMessages_found {store : MemoryStorage} {conversationId : String}
    {conv : MemConversation}
    (h : mapGet store.conversations conversationId = some conv)
    (messages : List BMessage) :
    store.saveMessages conversationId messages
      = { store with
          conversations := mapSet store.conversations conversationId
            { conv with
              messages := conv.messages ++ messages.enum.map
                (fun p =>
                  storedMessage store.messageIdCounter conversationId p.1 p.2) }
        , messageIdCounter := store.messageIdCounter + messages.length } := by
  simp [MemoryStorage.saveMessages, h]

theorem restore_storedMessage (counter : Nat) (conversationId : String)
    (idx : Nat) (m : BMessage) :
    restoreMessage (storedMessage counter conversationId idx m) = m := by
  cases m <;> rfl

theorem restore_enumFrom_map (counter : Nat) (conversationId : String)
    (msgs : List BMessage) :
    ∀ n : Nat, ((msgs.enumFrom n).map
        (fun p => storedMessage counter conversationId p.1 p.2)).map
          restoreMessage = msgs := by
  induction msgs with
  | nil => intro n; rfl
  | cons m rest ih =>
    intro n
    simp [List.enumFrom, restore_storedMessage, ih (n + 1)]

/-- C3: a Model Gateway failure is caught inside the model step: the step
returns the generic terminal assistant message with shouldContinue = false,
persists that message to the Conversation Store exactly like any other
message (one ASSISTANT record appended through the normal saveMessages
path), and the result does not depend on the thrown error value — nothing is
propagated to the caller (the embedded step is a total function). -/
theorem c3_gateway_error_recovery (e e' : String) (now now' : Nat)
    (store : MemoryStorage) (conversationId : String) (conv : MemConversation)
    (h : mapGet store.conversations conversationId = some conv) :
    (modelNodeRun (Except.error e) now store conversationId).2.1
        = errorAssistantMessage ∧
    (modelNodeRun (Except.error e) now store conversationId).2.2 = false ∧
    modelNodeRun (Except.error e) now store conversationId
        = modelNodeRun (Except.error e') now' store conversationId ∧
    (∃ conv' : MemConversation,
      mapGet (modelNodeRun (Except.error e) now store
          conversationId).1.conversations conversationId = some conv' ∧
      conv'.messages = conv.messages
          ++ [storedMessage store.messageIdCounter conversationId 0
                errorAssistantMessage] ∧
      conv'.messages.map restoreMessage
          = conv.messages.map restoreMessage ++ [errorAssistantMessage] ∧
      (storedMessage store.messageIdCounter conversationId 0
          errorAssistantMessage).role = Role.ASSISTANT) := by
  refine ⟨rfl, rfl, rfl, ?_⟩
  have h2 := saveMessages_found h [errorAssistantMessage]
  refine ⟨{ conv with
      messages := conv.messages
        ++ [storedMessage store.messageIdCounter conversationId 0
              errorAssistantMessage] }, ?_, rfl, ?_, rfl⟩
  · show mapGet (store.saveMessages conversationId
        [errorAssistantMessage]).conversations conversationId = some _
    rw [h2]
    exact mapGet_mapSet_self _ _ _
  · simp [restore_storedMessage]

/-- C3 witness: a concrete gateway failure on a store holding one (empty)
conversation ends the run with the generic assistant message. -/
theorem c3_gateway_error_recovery_witness :
    mapGet (emptyMemoryStorage.createConversation "c" "u" "t").conversations
        "c" = some ⟨"c", "u", "t", [], []⟩ ∧
    (modelNodeRun (Except.error "boom") 7
        (emptyMemoryStorage.createConversation "c" "u" "t") "c").2.2 = false ∧
    (modelNodeRun (Except.error "boom") 7
        (emptyMemoryStorage.createConversation "c" "u" "t") "c").2.1
      = errorAssistantMessage := by
  have h := c3_gateway_error_recovery "boom" "x" 7 8
    (emptyMemoryStorage.createConversation "c" "u" "t") "c"
    ⟨"c", "u", "t", [], []⟩ (by decide)
  exact ⟨by decide, h.2.1, h.1⟩

/-- C7 counterexample: readRecentMessages with limit = 0 on a one-message
conversation returns the whole log rather than the last 0 messages — JS
`slice(-0)` is `slice(0)` — so the claim fails at limit = 0. -/
theorem c7_counterexample :
    ((emptyMemoryStorage.createConversation "c" "u" "t").saveMessages "c"
        [BMessage.human "hi"]).getConversationMessages "c" 0
      = [BMessage.human "hi"] ∧
    ((emptyMemoryStorage.createConversation "c" "u" "t").saveMessages "c"
        [BMessage.human "hi"]).getConversationMessages "c" 0 ≠ [] := by
  exact ⟨by decide, by decide⟩

/-- C7 (amended): for every limit ≥ 1, readRecentMessages returns the last
`min limit length` messages of the primary tier's log in chronological order
(a suffix of the restored log); when the limit is at least the total count it
returns the entire log, and an unknown conversationId yields the empty
sequence. (For limit = 0 the code returns the entire log instead of the empty
window, because `slice(-0)` equals `slice(0)`.) -/
theorem c7_read_recent (store : MemoryStorage) (conversationId : String)
    (limit : Nat) (hpos : 1 ≤ limit) :
    (∀ conv : MemConversation,
      mapGet store.conversations conversationId = some conv →
      store.getConversationMessages conversationId limit
          = (conv.messages.map restoreMessage).drop
              (conv.messages.length - limit) ∧
      (store.getConversationMessages conversationId limit).length
          = min limit conv.messages.length ∧
      (conv.messages.length ≤ limit →
        store.getConversationMessages conversationId limit
          = conv.messages.map restoreMessage)) ∧
    (mapGet store.conversations conversationId = none →
      store.getConversationMessages conversationId limit = []) := by
  have h0 : ¬ limit = 0 := by omega
  constructor
  · intro conv h
    simp only [MemoryStorage.getConversationMessages, h, jsSliceLast,
      if_neg h0]
    refine ⟨List.map_drop _ _ _, ?_, ?_⟩
    · rw [List.length_map, List.length_drop]
      omega
    · intro hle
      have hz : conv.messages.length - limit = 0 := by omega
      rw [hz, List.drop_zero]
  · intro h
    simp [MemoryStorage.getConversationMessages, h]

/-- C7 witness: limit 1 on a two-message conversation returns the most recent
message. -/
theorem c7_read_recent_witness :
    ((emptyMemoryStorage.createConversation "c" "u" "t").saveMessages "c"
        [BMessage.human "a", BMessage.human "b"]).getConversationMessages
          "c" 1 = [BMessage.human "b"] := by
  have h := c7_read_recent
    ((emptyMemoryStorage.createConversation "c" "u" "t").saveMessages "c"
      [BMessage.human "a", BMessage.human "b"]) "c" 1 (by decide)
  obtain ⟨h1, -⟩ := h
  obtain ⟨ha, -, -⟩ := h1
    ⟨"c", "u", "t",
      [⟨"msg_1", "c", Role.USER, "a", none, none, none⟩,
       ⟨"msg_2", "c", Role.USER, "b", none, none, none⟩], []⟩ (by decide)
  rw [ha]
  decide

/-- C10: for a conversation created in the in-memory primary tier, saving a
sequence of (string-content) user, assistant and tool messages and reading
them back with a limit at least the total count is the identity: order, role
and content are preserved, each assistant message's tool-call list and each
tool message's toolCallId and tool name being restored from the stored
metadata. -/
theorem c10_save_read_roundtrip (store : MemoryStorage)
    (id userId title : String) (msgs : List BMessage) (limit : Nat)
    (h : msgs.length ≤ limit) :
    ((store.createConversation id userId title).saveMessages id
        msgs).getConversationMessages id limit = msgs := by
  have h1 : mapGet (store.createConversation id userId title).conversations id
      = some { id := id, userId := userId, title := title
             , messages := [], toolCalls := [] } := by
    rw [MemoryStorage.createConversation]
    exact mapGet_mapSet_self _ _ _
  have h2 := saveMessages_found h1 msgs
  have h3 : mapGet ((store.createConversation id userId title).saveMessages id
      msgs).conversations id
      = some { id := id, userId := userId, title := title
             , messages := [] ++ msgs.enum.map (fun p =>
                 storedMessage (store.createConversation id userId
                   title).messageIdCounter id p.1 p.2)
             , toolCalls := [] } := by
    rw [h2]
    exact mapGet_mapSet_self _ _ _
  simp only [MemoryStorage.getConversationMessages, h3, List.nil_append]
  have hlen : (msgs.enum.map (fun p =>
      storedMessage (store.createConversation id userId
        title).messageIdCounter id p.1 p.2)).length = msgs.length := by
    simp
  rw [jsSliceLast]
  by_cases hz : limit = 0
  · subst hz
    have hnil : msgs = [] := List.eq_nil_of_length_eq_zero (Nat.le_zero.mp h)
    subst hnil
    simp
  · rw [if_neg hz]
    have hd : (msgs.enum.map (fun p =>
        storedMessage (store.createConversation id userId
          title).messageIdCounter id p.1 p.2)).length - limit = 0 := by
      rw [hlen]
      omega
    rw [hd, List.drop_zero]
    exact restore_enumFrom_map _ _ msgs 0

/-- C10 witness: a three-message round trip (user, assistant with a tool
call, tool result) under limit 20. -/
theorem c10_save_read_roundtrip_witness :
    ([BMessage.human "u", BMessage.ai "a" [⟨"i", "f", "g"⟩],
        BMessage.tool "r" "i" "f"] : List BMessage).length ≤ 20 ∧
    ((emptyMemoryStorage.createConversation "c" "u" "t").saveMessages "c"
        [BMessage.human "u", BMessage.ai "a" [⟨"i", "f", "g"⟩],
         BMessage.tool "r" "i" "f"]).getConversationMessages "c" 20
      = [BMessage.human "u", BMessage.ai "a" [⟨"i", "f", "g"⟩],
         BMessage.tool "r" "i" "f"] := by
  exact ⟨by decide, c10_save_read_roundtrip emptyMemoryStorage "c" "u" "t"
    [BMessage.human "u", BMessage.ai "a" [⟨"i", "f", "g"⟩],
     BMessage.tool "r" "i" "f"] 20 (by decide)⟩

theorem lookupField_typeFieldSeg_hit (o : Option Json)
    (rest : List (String × Json)) :
    lookupField (typeFieldSeg o ++ rest) "type" = some (typeValue o) := by
  show lookupField ([("type", typeValue o)] ++ rest) "type"
      = some (typeValue o)
  rw [List.singleton_append, lookupField, if_pos rfl]

theorem skip_typeFieldSeg (k : String) (h : ¬ k = "type") (o : Option Json)
    (rest : List (String × Json)) :
    lookupField (typeFieldSeg o ++ rest) k = lookupField rest k := by
  show lookupField ([("type", typeValue o)] ++ rest) k = lookupField rest k
  rw [List.singleton_append, lookupField, if_neg (fun hh => h hh.symm)]

theorem propsSeg_hit (p : Json) (ht : jsTruthy p = true)
    (rest : List (String × Json)) :
    lookupField (propsSeg (some p) ++ rest) "properties"
      = some (Json.obj (cleanProperties p)) := by
  have hs : propsSeg (some p) = [("properties", Json.obj (cleanProperties p))] := by
    simp [propsSeg, ht]
  rw [hs, List.singleton_append, lookupField, if_pos rfl]

theorem skip_propsSeg (k : String) (h : ¬ k = "properties") (o : Option Json)
    (rest : List (String × Json)) :
    lookupField (propsSeg o ++ rest) k = lookupField rest k := by
  rcases o with _ | p
  · simp [propsSeg]
  · cases ht : jsTruthy p with
    | false => simp [propsSeg, ht]
    | true =>
      have hs : propsSeg (some p)
          = [("properties", Json.obj (cleanProperties p))] := by
        simp [propsSeg, ht]
      rw [hs, List.singleton_append, lookupField, if_neg (fun hh => h hh.symm)]

theorem itemsSeg_hit (it : Json) (ht : jsTruthy it = true)
    (rest : List (String × Json)) :
    lookupField (itemsSeg (some it) ++ rest) "items"
      = some (cleanJsonSchema it) := by
  have hs : itemsSeg (some it) = [("items", cleanJsonSchema it)] := by
    simp [itemsSeg, ht]
  rw [hs, List.singleton_append, lookupField, if_pos rfl]

theorem skip_itemsSeg (k : String) (h : ¬ k = "items") (o : Option Json)
    (rest : List (String × Json)) :
    lookupField (itemsSeg o ++ rest) k = lookupField rest k := by
  rcases o with _ | it
  · simp [itemsSeg]
  · cases ht : jsTruthy it with
    | false => simp [itemsSeg, ht]
    | true =>
      have hs : itemsSeg (some it) = [("items", cleanJsonSchema it)] := by
        simp [itemsSeg, ht]
      rw [hs, List.singleton_append, lookupField, if_neg (fun hh => h hh.symm)]

theorem requiredSeg_hit (xs : List Json) (rest : List (String × Json)) :
    lookupField (requiredSeg (some (Json.arr xs)) ++ rest) "required"
      = some (Json.arr xs) := by
  rw [show requiredSeg (some (Json.arr xs)) = [("required", Json.arr xs)]
      from rfl, List.singleton_append, lookupField, if_pos rfl]

theorem skip_requiredSeg (k : String) (h : ¬ k = "required") (o : Option Json)
    (rest : List (String × Json)) :
    lookupField (requiredSeg o ++ rest) k = lookupField rest k := by
  rcases o with _ | v
  · simp [requiredSeg]
  · cases v with
    | arr xs =>
      rw [show requiredSeg (some (Json.arr xs)) = [("required", Json.arr xs)]
          from rfl, List.singleton_append, lookupField,
        if_neg (fun hh => h hh.symm)]
    | null => simp [requiredSeg]
    | bool b => simp [requiredSeg]
    | num n => simp [requiredSeg]
    | str s => simp [requiredSeg]
    | obj fs => simp [requiredSeg]

theorem keepTruthySeg_hit (k : String) (v : Json) (ht : jsTruthy v = true)
    (rest : List (String × Json)) :
    lookupField (keepTruthySeg k (some v) ++ rest) k = some v := by
  have hs : keepTruthySeg k (some v) = [(k, v)] := by simp [keepTruthySeg, ht]
  rw [hs, List.singleton_append, lookupField, if_pos rfl]

theorem keepTruthySeg_hit_last (k : String) (v : Json)
    (ht : jsTruthy v = true) :
    lookupField (keepTruthySeg k (some v)) k = some v := by
  have hs : keepTruthySeg k (some v) = [(k, v)] := by simp [keepTruthySeg, ht]
  rw [hs, lookupField, if_pos rfl]

theorem skip_keepTruthySeg (k k0 : String) (h : ¬ k = k0) (o : Option Json)
    (rest : List (String × Json)) :
    lookupField (keepTruthySeg k0 o ++ rest) k = lookupField rest k := by
  rcases o with _ | v
  · simp [keepTruthySeg]
  · cases ht : jsTruthy v with
    | false => simp [keepTruthySeg, ht]
    | true =>
      have hs : keepTruthySeg k0 (some v) = [(k0, v)] := by
        simp [keepTruthySeg, ht]
      rw [hs, List.singleton_append, lookupField, if_neg (fun hh => h hh.symm)]

theorem keepTruthySeg_lookup_ne (k k0 : String) (h : ¬ k = k0)
    (o : Option Json) :
    lookupField (keepTruthySeg k0 o) k = none := by
  rcases o with _ | v
  · rfl
  · cases ht : jsTruthy v with
    | false => simp [keepTruthySeg, ht, lookupField]
    | true =>
      have hs : keepTruthySeg k0 (some v) = [(k0, v)] := by
        simp [keepTruthySeg, ht]
      rw [hs, lookupField, if_neg (fun hh => h hh.symm)]
      rfl

theorem cleanPairs_eq_map (fs : List (String × Json)) :
    cleanPairs fs = fs.map (fun kv => (kv.1, cleanJsonSchema kv.2)) := by
  induction fs with
  | nil => simp [cleanPairs]
  | cons kv rest ih =>
    obtain ⟨k, v⟩ := kv
    simp [cleanPairs, ih]

theorem cleanIndexed_eq_map (xs : List Json) :
    ∀ i : Nat, cleanIndexed i xs
      = (indexedJson i xs).map (fun kv => (kv.1, cleanJsonSchema kv.2)) := by
  induction xs with
  | nil => intro i; simp [cleanIndexed, indexedJson]
  | cons x rest ih => intro i; simp [cleanIndexed, indexedJson, ih (i + 1)]

theorem clean_str_singleton (c : Char) :
    cleanJsonSchema (Json.str (String.singleton c)) = emptyObjectSchema := by
  simp [cleanJsonSchema]

theorem strEntriesCleaned_eq_map (cs : List Char) :
    ∀ i : Nat, strEntriesCleaned i cs
      = (indexedStr i cs).map (fun kv => (kv.1, cleanJsonSchema kv.2)) := by
  induction cs with
  | nil => intro i; simp [strEntriesCleaned, indexedStr]
  | cons c rest ih =>
    intro i
    simp [strEntriesCleaned, indexedStr, ih (i + 1), clean_str_singleton]

theorem cleanProperties_eq_entries (p : Json) :
    cleanProperties p
      = (jsEntries p).map (fun kv => (kv.1, cleanJsonSchema kv.2)) := by
  cases p with
  | obj fs => simp [cleanProperties, jsEntries, cleanPairs_eq_map]
  | arr xs => simp [cleanProperties, jsEntries, cleanIndexed_eq_map]
  | str s => simp [cleanProperties, jsEntries, strEntriesCleaned_eq_map]
  | null => simp [cleanProperties, jsEntries]
  | bool b => simp [cleanProperties, jsEntries]
  | num n => simp [cleanProperties, jsEntries]

theorem cleanJsonSchema_obj (fields : List (String × Json)) :
    cleanJsonSchema (Json.obj fields)
      = Json.obj
          (typeFieldSeg (lookupField fields "type")
            ++ propsSeg (lookupField fields "properties")
            ++ itemsSeg (lookupField fields "items")
            ++ requiredSeg (lookupField fields "required")
            ++ keepTruthySeg "description" (lookupField fields "description")
            ++ keepTruthySeg "enum" (lookupField fields "enum")) := by
  simp [cleanJsonSchema]

theorem clean_nonObjLike {j : Json} (h : Json.isObjLike j = false) :
    cleanJsonSchema j = emptyObjectSchema := by
  cases j <;> simp_all [cleanJsonSchema, Json.isObjLike]

theorem jsGet_some_obj {j : Json} {k : String} {v : Json}
    (h : jsGet j k = some v) :
    ∃ fields, j = Json.obj fields ∧ lookupField fields k = some v := by
  cases j with
  | obj fields => exact ⟨fields, rfl, h⟩
  | null => simp [jsGet] at h
  | bool b => simp [jsGet] at h
  | num n => simp [jsGet] at h
  | str s => simp [jsGet] at h
  | arr xs => simp [jsGet] at h

/-- C9 counterexample: a schema carrying `description: ""` — the input has
the `description` field, but the cleaned schema drops it because the copy is
guarded by JS truthiness and the empty string is falsy; so the claim's
unconditional preservation of the six fields fails as stated. -/
theorem c9_counterexample :
    jsGet (Json.obj [("type", Json.str "object"),
        ("description", Json.str "")]) "description" = some (Json.str "") ∧
    jsGet (cleanJsonSchema (Json.obj [("type", Json.str "object"),
        ("description", Json.str "")])) "description" = none := by
  constructor
  · rfl
  · rw [cleanJsonSchema_obj]
    simp [jsGet, typeFieldSeg, typeValue, propsSeg, itemsSeg, requiredSeg,
      keepTruthySeg, lookupField, jsTruthy]

/-- C9 (amended): the schema-cleaning step keeps only the six fields `type`,
`properties`, `required`, `items`, `enum` and `description`, stripping every
other field; it preserves each of the six when present with a JS-truthy
value — `type` defaulting to `'object'` when absent or falsy, `properties`
cleaned recursively entry by entry, `items` cleaned recursively, and
`required` kept only when it is an array — while a present-but-falsy `enum`
or `description` (e.g. the empty string) is dropped; a falsy or non-object
(per JS `typeof`) schema is replaced by the empty object schema; and the
declarations handed to the Model Gateway carry exactly the cleaned schema. -/
theorem c9_clean_schema (j : Json) :
    (Json.isObjLike j = false → cleanJsonSchema j = emptyObjectSchema) ∧
    (∀ k : String,
      k ∉ (["type", "properties", "required", "items", "enum",
            "description"] : List String) →
      jsGet (cleanJsonSchema j) k = none) ∧
    (∀ v, jsGet j "type" = some v → jsTruthy v = true →
      jsGet (cleanJsonSchema j) "type" = some v) ∧
    (∀ v, jsGet j "type" = some v → jsTruthy v = false →
      jsGet (cleanJsonSchema j) "type" = some (Json.str "object")) ∧
    (jsGet j "type" = none →
      jsGet (cleanJsonSchema j) "type" = some (Json.str "object")) ∧
    (∀ p, jsGet j "properties" = some p → jsTruthy p = true →
      jsGet (cleanJsonSchema j) "properties"
        = some (Json.obj ((jsEntries p).map
            (fun kv => (kv.1, cleanJsonSchema kv.2))))) ∧
    (∀ it, jsGet j "items" = some it → jsTruthy it = true →
      jsGet (cleanJsonSchema j) "items" = some (cleanJsonSchema it)) ∧
    (∀ xs, jsGet j "required" = some (Json.arr xs) →
      jsGet (cleanJsonSchema j) "required" = some (Json.arr xs)) ∧
    (∀ d, jsGet j "description" = some d → jsTruthy d = true →
      jsGet (cleanJsonSchema j) "description" = some d) ∧
    (∀ en, jsGet j "enum" = some en → jsTruthy en = true →
      jsGet (cleanJsonSchema j) "enum" = some en) ∧
    (∀ tool : ToolDescriptor,
      (convertToolsToGemini [tool]).map FunctionDeclaration.parameters
        = [cleanJsonSchema (tool.inputSchema.getD Json.null)]) := by
  refine ⟨fun h => clean_nonObjLike h, ?_, ?_, ?_, ?_, ?_, ?_, ?_, ?_, ?_, ?_⟩
  · intro k hk
    have h1 : ¬ k = "type" := fun hh => hk (by simp [hh])
    have h2 : ¬ k = "properties" := fun hh => hk (by simp [hh])
    have h3 : ¬ k = "required" := fun hh => hk (by simp [hh])
    have h4 : ¬ k = "items" := fun hh => hk (by simp [hh])
    have h5 : ¬ k = "enum" := fun hh => hk (by simp [hh])
    have h6 : ¬ k = "description" := fun hh => hk (by simp [hh])
    cases j with
    | obj fields =>
      rw [cleanJsonSchema_obj]
      show lookupField _ k = none
      simp only [List.append_assoc]
      rw [skip_typeFieldSeg k h1, skip_propsSeg k h2, skip_itemsSeg k h4,
        skip_requiredSeg k h3, skip_keepTruthySeg k "description" h6]
      exact keepTruthySeg_lookup_ne k "enum" h5 _
    | arr xs =>
      have hcl : cleanJsonSchema (Json.arr xs)
          = Json.obj [("type", Json.str "object")] := by
        simp [cleanJsonSchema]
      rw [hcl]
      show lookupField [("type", Json.str "object")] k = none
      rw [lookupField, if_neg (fun hh => h1 hh.symm)]
      rfl
    | null =>
      have hc : cleanJsonSchema Json.null = emptyObjectSchema :=
        clean_nonObjLike rfl
      rw [hc]
      show lookupField [("type", Json.str "object"),
          ("properties", Json.obj [])] k = none
      rw [lookupField, if_neg (fun hh => h1 hh.symm), lookupField,
        if_neg (fun hh => h2 hh.symm)]
      rfl
    | bool b =>
      have hc : cleanJsonSchema (Json.bool b) = emptyObjectSchema :=
        clean_nonObjLike rfl
      rw [hc]
      show lookupField [("type", Json.str "object"),
          ("properties", Json.obj [])] k = none
      rw [lookupField, if_neg (fun hh => h1 hh.symm), lookupField,
        if_neg (fun hh => h2 hh.symm)]
      rfl
    | num n =>
      have hc : cleanJsonSchema (Json.num n) = emptyObjectSchema :=
        clean_nonObjLike rfl
      rw [hc]
      show lookupField [("type", Json.str "object"),
          ("properties", Json.obj [])] k = none
      rw [lookupField, if_neg (fun hh => h1 hh.symm), lookupField,
        if_neg (fun hh => h2 hh.symm)]
      rfl
    | str s =>
      have hc : cleanJsonSchema (Json.str s) = emptyObjectSchema :=
        clean_nonObjLike rfl
      rw [hc]
      show lookupField [("type", Json.str "object"),
          ("properties", Json.obj [])] k = none
      rw [lookupField, if_neg (fun hh => h1 hh.symm), lookupField,
        if_neg (fun hh => h2 hh.symm)]
      rfl
  · intro v hv htv
    obtain ⟨fields, rfl, hlk⟩ := jsGet_some_obj hv
    rw [cleanJsonSchema_obj]
    show lookupField _ "type" = some v
    simp only [List.append_assoc]
    rw [hlk, lookupField_typeFieldSeg_hit]
    simp [typeValue, htv]
  · intro v hv htv
    obtain ⟨fields, rfl, hlk⟩ := jsGet_some_obj hv
    rw [cleanJsonSchema_obj]
    show lookupField _ "type" = some (Json.str "object")
    simp only [List.append_assoc]
    rw [hlk, lookupField_typeFieldSeg_hit]
    simp [typeValue, htv]
  · intro hnone
    cases j with
    | obj fields =>
      simp only [jsGet] at hnone
      rw [cleanJsonSchema_obj]
      show lookupField _ "type" = some (Json.str "object")
      simp only [List.append_assoc]
      rw [hnone, lookupField_typeFieldSeg_hit]
      rfl
    | arr xs =>
      have hcl : cleanJsonSchema (Json.arr xs)
          = Json.obj [("type", Json.str "object")] := by
        simp [cleanJsonSchema]
      rw [hcl]
      rfl
    | null =>
      have hc : cleanJsonSchema Json.null = emptyObjectSchema :=
        clean_nonObjLike rfl
      rw [hc]; rfl
    | bool b =>
      have hc : cleanJsonSchema (Json.bool b) = emptyObjectSchema :=
        clean_nonObjLike rfl
      rw [hc]; rfl
    | num n =>
      have hc : cleanJsonSchema (Json.num n) = emptyObjectSchema :=
        clean_nonObjLike rfl
      rw [hc]; rfl
    | str s =>
      have hc : cleanJsonSchema (Json.str s) = emptyObjectSchema :=
        clean_nonObjLike rfl
      rw [hc]; rfl
  · intro p hp htp
    obtain ⟨fields, rfl, hlk⟩ := jsGet_some_obj hp
    rw [cleanJsonSchema_obj]
    show lookupField _ "properties" = _
    simp only [List.append_assoc]
    rw [skip_typeFieldSeg "properties" (by decide), hlk, propsSeg_hit p htp,
      cleanProperties_eq_entries]
  · intro it hit0 htit
    obtain ⟨fields, rfl, hlk⟩ := jsGet_some_obj hit0
    rw [cleanJsonSchema_obj]
    show lookupField _ "items" = _
    simp only [List.append_assoc]
    rw [skip_typeFieldSeg "items" (by decide),
      skip_propsSeg "items" (by decide), hlk, itemsSeg_hit it htit]
  · intro xs hxs
    obtain ⟨fields, rfl, hlk⟩ := jsGet_some_obj hxs
    rw [cleanJsonSchema_obj]
    show lookupField _ "required" = _
    simp only [List.append_assoc]
    rw [skip_typeFieldSeg "required" (by decide),
      skip_propsSeg "required" (by decide),
      skip_itemsSeg "required" (by decide), hlk, requiredSeg_hit]
  · intro d hd htd
    obtain ⟨fields, rfl, hlk⟩ := jsGet_some_obj hd
    rw [cleanJsonSchema_obj]
    show lookupField _ "description" = _
    simp only [List.append_assoc]
    rw [skip_typeFieldSeg "description" (by decide),
      skip_propsSeg "description" (by decide),
      skip_itemsSeg "description" (by decide),
      skip_requiredSeg "description" (by decide), hlk,
      keepTruthySeg_hit "description" d htd]
  · intro en hen hten
    obtain ⟨fields, rfl, hlk⟩ := jsGet_some_obj hen
    rw [cleanJsonSchema_obj]
    show lookupField _ "enum" = _
    simp only [List.append_assoc]
    rw [skip_typeFieldSeg "enum" (by decide),
      skip_propsSeg "enum" (by decide), skip_itemsSeg "enum" (by decide),
      skip_requiredSeg "enum" (by decide),
      skip_keepTruthySeg "enum" "description" (by decide), hlk,
      keepTruthySeg_hit_last "enum" en hten]
  · intro tool
    simp [convertToolsToGemini]

/-- C9 witness: an object schema with a non-empty description and a
non-standard field — the description is preserved and the non-standard field
is stripped. -/
theorem c9_clean_schema_witness :
    jsGet (cleanJsonSchema (Json.obj [("description", Json.str "d"),
        ("additionalProperties", Json.bool false)])) "description"
      = some (Json.str "d") ∧
    jsGet (cleanJsonSchema (Json.obj [("description", Json.str "d"),
        ("additionalProperties", Json.bool false)])) "additionalProperties"
      = none := by
  have h := c9_clean_schema (Json.obj [("description", Json.str "d"),
    ("additionalProperties", Json.bool false)])
  refine ⟨?_, ?_⟩
  · exact h.2.2.2.2.2.2.2.2.1 (Json.str "d") (by rfl) (by rfl)
  · exact h.2.1 "additionalProperties" (by decide)
